import Mathlib

/-!
Verification development for the mudbrick text-index / redaction-search core.

The JavaScript source is shallowly embedded:
* JS strings are `List Char`;
* JS numbers occurring in coordinate arithmetic are `ℚ` (exact rationals);
  `Math.sqrt` is modelled by `ratSqrt`, the exact rational square root
  (exact on all perfect-square inputs, which are the only ones the
  theorems below evaluate it on);
* the stateful `for`/`while` loops become structural recursion or folds.

Embedded functions (with their source locations):
* `transformPoint`, `buildCharMap`, `getRectsForRange`, `searchPatterns`'
  inner match loop (`searchLoop`), `luhnCheck`, `escapeRegex`, and the
  `validate` closures of `REDACTION_PATTERNS.ssn` / `REDACTION_PATTERNS.creditCard`
  all come from the redaction-search module;
* `SCALE_FACTOR` and the OCR word-box conversion come from `ocr.js`.
-/

namespace Mudbrick

/-- The integer square root (largest `k` with `k * k ≤ n`), computed by a
structural fold so that the kernel can evaluate it on concrete inputs. -/
def natSqrt (n : Nat) : Nat :=
  (List.range (n + 1)).foldl (fun acc k => if k * k ≤ n then k else acc) 0

/-- `Math.sqrt`, modelled as the exact rational square root (exact on all
perfect-square inputs, which are the only ones the theorems below
evaluate it on). -/
def ratSqrt (q : ℚ) : ℚ :=
  (natSqrt q.num.toNat : ℚ) / (natSqrt q.den : ℚ)

/-- `Math.max` on rationals. -/
def jsMax (a b : ℚ) : ℚ :=
  if a ≤ b then b else a

/-- A 2-D affine transform `[a, b, c, d, e, f]`, as used for PDF.js
viewport and text-item transforms. -/
structure Mat where
  a : ℚ
  b : ℚ
  c : ℚ
  d : ℚ
  e : ℚ
  f : ℚ
deriving DecidableEq

/-- `transformPoint(viewportTransform, textTransform)` from the source:
simplified matrix multiplication for `[a,b,c,d,e,f]` transforms.
(The `window.pdfjsLib?.Util?.transform` branch computes the same product;
the source falls back to this function when that helper is absent.) -/
def transformPoint (vt tt : Mat) : Mat where
  a := vt.a * tt.a + vt.c * tt.b
  b := vt.b * tt.a + vt.d * tt.b
  c := vt.a * tt.c + vt.c * tt.d
  d := vt.b * tt.c + vt.d * tt.d
  e := vt.a * tt.e + vt.c * tt.f + vt.e
  f := vt.b * tt.e + vt.d * tt.f + vt.f

/-- A PDF.js text-content item: a glyph run with its text, transform and
display width. An empty `str` models a falsy `item.str`. -/
structure TextItem where
  str : List Char
  transform : Mat
  width : ℚ
deriving DecidableEq

/-- A positioned character box, one entry of the character map. -/
structure CharBox where
  x : ℚ
  y : ℚ
  w : ℚ
  h : ℚ
deriving DecidableEq

/-- A reconstructed bounding rectangle. -/
structure Rect where
  x : ℚ
  y : ℚ
  width : ℚ
  height : ℚ
deriving DecidableEq

/-- The font size computed by `buildCharMap` for one item:
`Math.sqrt(tx[2]*tx[2] + tx[3]*tx[3])` of the composed transform. -/
def itemFontSize (vp : Mat) (it : TextItem) : ℚ :=
  ratSqrt ((transformPoint vp it.transform).c * (transformPoint vp it.transform).c +
    (transformPoint vp it.transform).d * (transformPoint vp it.transform).d)

/-- The character boxes pushed by the inner `for` loop of `buildCharMap`
for one item: `charMap.push({x: x + avgCharWidth*i, y: y - fontSize,
w: avgCharWidth, h: fontSize})` for `i = 0 .. str.length - 1`. -/
def runChars (x y fs avgW : ℚ) (n : Nat) : List CharBox :=
  (List.range n).map (fun (i : Nat) => ⟨x + avgW * (i : ℚ), y - fs, avgW, fs⟩)

/-- All character boxes contributed by one item (empty for a falsy `item.str`). -/
def itemBoxes (vp : Mat) (it : TextItem) : List CharBox :=
  if it.str = [] then []
  else
    let tx := transformPoint vp it.transform
    let avgW := it.width / (if it.str.length = 0 then (1 : ℚ) else (it.str.length : ℚ))
    runChars tx.e tx.f (itemFontSize vp it) avgW it.str.length

/-- One iteration of `buildCharMap`'s `for (const item of items)` loop:
a falsy `item.str` contributes a single space plus a null map entry;
otherwise the item's characters are pushed, the text appended, and a
separator (space in the text, null in the map) appended after the item. -/
def buildStep (vp : Mat) (acc : List Char × List (Option CharBox)) (it : TextItem) :
    List Char × List (Option CharBox) :=
  if it.str = [] then (acc.1 ++ [' '], acc.2 ++ [none])
  else
    (acc.1 ++ it.str ++ [' '], acc.2 ++ (itemBoxes vp it).map some ++ [none])

/-- `buildCharMap(items, viewport)` from the source: returns the pair
`(fullText, charMap)`. -/
def buildCharMap (items : List TextItem) (vp : Mat) :
    List Char × List (Option CharBox) :=
  items.foldl (buildStep vp) ([], [])

/-! ## Rectangle reconstruction (`getRectsForRange`) -/

/-- The body of `getRectsForRange`'s `for` loop, as structural recursion
over the charMap slice being walked, carrying the `currentRect` state:
a null entry pushes and clears any open rectangle; a positioned entry
opens a rectangle if none is open, extends it when
`Math.abs(pos.y - currentRect.y) < pos.h * 0.5`, and otherwise pushes it
and opens a fresh one; a still-open rectangle is pushed after the loop. -/
def rectsWalk : List (Option CharBox) → Option Rect → List Rect
  | [], none => []
  | [], some r => [r]
  | none :: rest, none => rectsWalk rest none
  | none :: rest, some r => r :: rectsWalk rest none
  | some p :: rest, none => rectsWalk rest (some ⟨p.x, p.y, p.w, p.h⟩)
  | some p :: rest, some r =>
      if |p.y - r.y| < p.h * (1 / 2) then
        rectsWalk rest (some ⟨r.x, r.y, p.x + p.w - r.x, jsMax r.height p.h⟩)
      else
        r :: rectsWalk rest (some ⟨p.x, p.y, p.w, p.h⟩)

/-- `getRectsForRange(charMap, startIdx, endIdx)` from the source: the
loop runs over indices `startIdx <= i < min endIdx charMap.length`, i.e.
over the slice `(charMap.take endIdx).drop startIdx`. -/
def getRectsForRange (charMap : List (Option CharBox)) (startIdx endIdx : Nat) : List Rect :=
  rectsWalk ((charMap.take endIdx).drop startIdx) none

/-! ## Pattern validators -/

/-- A character matched by the JS character class `[-\s]`, the separator
class stripped by the SSN and credit-card validators. -/
def isSepChar (c : Char) : Bool :=
  c = '-' || c.isWhitespace

/-- `match.replace(/[-\s]/g, '')`: drop every separator character. -/
def stripSeps (s : List Char) : List Char :=
  s.filter (fun c => !(isSepChar c))

/-- The numeric value of a digit character (`'0'` ↦ 0, …, `'9'` ↦ 9). -/
def digitVal (c : Char) : Nat :=
  c.toNat - 48

/-- `parseInt` on an all-digit string (its domain at the one call site,
`parseInt(digits.substring(0, 3))` where `digits` comes from a `\d`-shaped
regex match): the base-10 value of the digit characters. -/
def charsToNat (l : List Char) : Nat :=
  l.foldl (fun acc c => 10 * acc + digitVal c) 0

/-- `REDACTION_PATTERNS.ssn.validate` from the source: strip separators,
require 9 digits, reject area 000 / 666 / 900+, group "00", serial "0000". -/
def ssnValidate (s : List Char) : Bool :=
  let digits := stripSeps s
  if digits.length ≠ 9 then false
  else
    let area := charsToNat (digits.take 3)
    if area = 0 ∨ area = 666 ∨ 900 ≤ area then false
    else if (digits.drop 3).take 2 = ['0', '0'] then false
    else if digits.drop 5 = ['0', '0', '0', '0'] then false
    else true

/-- The doubling step of `luhnCheck`: `n *= 2; if (n > 9) n -= 9`. -/
def doubleDig (n : Nat) : Nat :=
  if 9 < 2 * n then 2 * n - 9 else 2 * n

/-- The summation loop of `luhnCheck`, running over the digit string from
its last character to its first (hence: over the reversed list, head
first), with the alternating flag; `parseInt(num[i], 10)` yields NaN on a
non-digit character, which poisons the sum — modelled by `Option`
(`none` = NaN). -/
def luhnSum : List Char → Bool → Option Nat
  | [], _ => some 0
  | c :: rest, alt =>
      if c.isDigit then
        (luhnSum rest (!alt)).map
          (fun s => (if alt then doubleDig (digitVal c) else digitVal c) + s)
      else
        none

/-- `luhnCheck(num)` from the source: `sum % 10 === 0` (false when the
sum is NaN). -/
def luhnCheck (num : List Char) : Bool :=
  match luhnSum num.reverse false with
  | none => false
  | some s => s % 10 = 0

/-- `REDACTION_PATTERNS.creditCard.validate` from the source: strip
separators, require length 13–19, then the Luhn check. -/
def creditCardValidate (s : List Char) : Bool :=
  let digits := stripSeps s
  if digits.length < 13 ∨ 19 < digits.length then false
  else luhnCheck digits

/-! ## Custom-pattern fallback (`escapeRegex`) -/

/-- A JS regex metacharacter, i.e. a character matched by the class
`[.*+?^${}()|[\]\\]` in `escapeRegex`. -/
def isMeta (c : Char) : Bool :=
  c ∈ ['.', '*', '+', '?', '^', '$', '\x7b', '\x7d', '(', ')', '|', '[', ']', '\\']

/-- `escapeRegex(string)` from the source:
`string.replace(/[.*+?^${}()|[\]\\]/g, '\\$&')` — every metacharacter
occurrence is replaced by a backslash followed by itself. -/
def escapeRegex (s : List Char) : List Char :=
  (s.map (fun c => if isMeta c then ['\\', c] else [c])).flatten

/-- Modelled from the spec: the regex engine itself is an external
platform collaborator (only `new RegExp(...)` calls appear in the
source).  Per the spec, an escaped pattern is to "behave as literal
substring search for the exact string supplied"; `litPattern` is the
literal fragment of the regex language: it interprets a pattern as a
plain character sequence, reading `\c` as the literal character `c` and
refusing (`none`) any unescaped metacharacter, which would carry special
meaning. -/
def litPattern : List Char → Option (List Char)
  | [] => some []
  | c :: rest =>
      if c = '\\' then
        match rest with
        | [] => none
        | d :: rest' => (litPattern rest').map (fun l => d :: l)
      else if isMeta c then none
      else (litPattern rest).map (fun l => c :: l)

/-- The custom-pattern compilation in `searchPatterns`: when the supplied
pattern's regex syntax is invalid (`syntaxOk = false`), the `catch`
branch compiles `escapeRegex(customPattern)` instead; no exception
escapes. -/
def customRegexChars (p : List Char) (syntaxOk : Bool) : List Char :=
  if syntaxOk then p else escapeRegex p

/-! ## The shape of SSN-regex matches -/

/-- The character of a decimal digit. -/
def digitChar (d : Fin 10) : Char :=
  Char.ofNat (48 + d.val)

/-- A match of the SSN regex `\b\d{3}[-\s]?\d{2}[-\s]?\d{4}\b`: three
area digits, an optional separator, two group digits, an optional
separator, four serial digits.  A separator field, when present, holds
the concrete `[-\s]` character that matched. -/
structure SSNMatch where
  a1 : Fin 10
  a2 : Fin 10
  a3 : Fin 10
  g1 : Fin 10
  g2 : Fin 10
  s1 : Fin 10
  s2 : Fin 10
  s3 : Fin 10
  s4 : Fin 10
  sep1 : Option Char
  sep2 : Option Char

/-- The matched text of an `SSNMatch`. -/
def renderSSN (m : SSNMatch) : List Char :=
  [digitChar m.a1, digitChar m.a2, digitChar m.a3] ++ m.sep1.toList ++
    [digitChar m.g1, digitChar m.g2] ++ m.sep2.toList ++
    [digitChar m.s1, digitChar m.s2, digitChar m.s3, digitChar m.s4]

/-- The numeric area number of an `SSNMatch` (value of its first three
digits). -/
def ssnArea (m : SSNMatch) : Nat :=
  100 * m.a1.val + 10 * m.a2.val + m.a3.val

/-! ## The textbook formulation of the Luhn checksum -/

/-- The Luhn sum as commonly specified, over the digit values read from
the *rightmost* digit: odd positions (second, fourth, …) are doubled with
9 subtracted above 9.  Defined two digits at a time. -/
def luhnAlt : List Nat → Nat
  | [] => 0
  | [a] => a
  | a :: b :: rest => a + doubleDig b + luhnAlt rest

/-- `luhnAlt` when the *first* digit of the (right-to-left) list is at an
odd position, i.e. is itself doubled. -/
def luhnAltT : List Nat → Nat
  | [] => 0
  | a :: rest => doubleDig a + luhnAlt rest

/-! ## The match loop of `searchPatterns` -/

/-- One result entry pushed by `searchPatterns`:
`{ pageNum, pattern, text, rects }`, restricted to the per-match fields. -/
structure SearchHit where
  text : List Char
  rects : List Rect
deriving DecidableEq

/-- A compiled pattern as `searchPatterns` uses one: `exec fullText
lastIndex` yields the next match's `(index, match[0])` starting the scan
at `lastIndex` (the contract of a global-flag `RegExp.exec`), and
`validate` is the pattern's validator. -/
structure PatternM where
  exec : List Char → Nat → Option (Nat × List Char)
  validate : List Char → Bool

/-- The `while ((match = regex.exec(fullText)) !== null)` loop of
`searchPatterns`, fuel-indexed (each constructor application is one
unrolling of the loop): a failing validator skips the match; otherwise
`getRectsForRange` is consulted and the hit is pushed only when it
returned at least one rectangle.  After a match at `idx` of length `n`,
the engine's `lastIndex` is `idx + n`. -/
def searchLoop (pm : PatternM) (fullText : List Char) (charMap : List (Option CharBox)) :
    Nat → Nat → List SearchHit
  | 0, _ => []
  | fuel + 1, lastIndex =>
      match pm.exec fullText lastIndex with
      | none => []
      | some (idx, mt) =>
          if pm.validate mt = false then
            searchLoop pm fullText charMap fuel (idx + mt.length)
          else
            let rects := getRectsForRange charMap idx (idx + mt.length)
            if 0 < rects.length then
              ⟨mt, rects⟩ :: searchLoop pm fullText charMap fuel (idx + mt.length)
            else
              searchLoop pm fullText charMap fuel (idx + mt.length)

/-! ## OCR coordinate conversion (`ocr.js`) -/

/-- `OCR_DPI = 300` from `ocr.js`. -/
def OCR_DPI : ℚ := 300

/-- `PDF_DPI = 72` from `ocr.js`. -/
def PDF_DPI : ℚ := 72

/-- `SCALE_FACTOR = OCR_DPI / PDF_DPI` from `ocr.js`. -/
def SCALE_FACTOR : ℚ := OCR_DPI / PDF_DPI

/-- An axis-aligned bounding box `{x0, y0, x1, y1}`. -/
structure BBox where
  x0 : ℚ
  y0 : ℚ
  x1 : ℚ
  y1 : ℚ
deriving DecidableEq

/-- The `pdfBbox` computed per word in `runOCR`: every coordinate of the
300-dpi image-space box is divided by `SCALE_FACTOR` before storage. -/
def pdfBboxOf (b : BBox) : BBox :=
  ⟨b.x0 / SCALE_FACTOR, b.y0 / SCALE_FACTOR, b.x1 / SCALE_FACTOR, b.y1 / SCALE_FACTOR⟩

/-! ## Spec-side reference definitions (for refinement comparisons) -/

/-- Modelled from the spec: the rectangle walk as section 4.5 words it,
extending the open rectangle exactly when "the entry's vertical center
lies within half its height of the open rectangle's vertical center";
identical to `rectsWalk` in every other respect. -/
def centerWalk : List (Option CharBox) → Option Rect → List Rect
  | [], none => []
  | [], some r => [r]
  | none :: rest, none => centerWalk rest none
  | none :: rest, some r => r :: centerWalk rest none
  | some p :: rest, none => centerWalk rest (some ⟨p.x, p.y, p.w, p.h⟩)
  | some p :: rest, some r =>
      if |(p.y + p.h * (1 / 2)) - (r.y + r.height * (1 / 2))| < p.h * (1 / 2) then
        centerWalk rest (some ⟨r.x, r.y, p.x + p.w - r.x, jsMax r.height p.h⟩)
      else
        r :: centerWalk rest (some ⟨p.x, p.y, p.w, p.h⟩)

/-- Modelled from the spec: `centerWalk` applied to the same slice
`getRectsForRange` walks. -/
def centerRuleRects (charMap : List (Option CharBox)) (startIdx endIdx : Nat) : List Rect :=
  centerWalk ((charMap.take endIdx).drop startIdx) none

/-- One step of the spec-worded state machine for the amended walk rule:
state `(closed rectangles, open rectangle)`; a null entry closes any open
rectangle; a positioned entry opens one if none is open, extends the open
one when the entry's top edge lies within half the entry's height of the
open rectangle's top edge, and otherwise closes it and opens a new one. -/
def walkStep : List Rect × Option Rect → Option CharBox → List Rect × Option Rect
  | (rs, none), none => (rs, none)
  | (rs, some r), none => (rs ++ [r], none)
  | (rs, none), some p => (rs, some ⟨p.x, p.y, p.w, p.h⟩)
  | (rs, some r), some p =>
      if |p.y - r.y| < p.h * (1 / 2) then
        (rs, some ⟨r.x, r.y, p.x + p.w - r.x, jsMax r.height p.h⟩)
      else
        (rs ++ [r], some ⟨p.x, p.y, p.w, p.h⟩)

/-- The amended walk as a left fold of `walkStep` over the slice, flushing
any still-open rectangle at span end. -/
def spanWalkRects (charMap : List (Option CharBox)) (startIdx endIdx : Nat) : List Rect :=
  let st := ((charMap.take endIdx).drop startIdx).foldl walkStep ([], none)
  st.1 ++ st.2.toList

/-- The reading of claim C8 / spec §4.3 in which the single-space
separator stands strictly *between* runs: the run texts joined by a
single space. -/
def textWithSepsBetween (items : List TextItem) : List Char :=
  List.intercalate [' '] (items.map (fun it => it.str))

/-! ## Concrete fixtures used by counterexamples and witnesses -/

/-- A glyph run "ab" at font size 10, baseline at y = 100, x = 0,
display width 20 (so 10 per character). -/
def itAB : TextItem := ⟨"ab".data, ⟨10, 0, 0, 10, 0, 100⟩, 20⟩

/-- A glyph run "cd" with the same transform scale and the same baseline
y = 100 as `itAB` (hence laid out on the same line), at x = 30. -/
def itCD : TextItem := ⟨"cd".data, ⟨10, 0, 0, 10, 30, 100⟩, 20⟩

/-- The identity viewport transform (`scale: 1.0`). -/
def vpId : Mat := ⟨1, 0, 0, 1, 0, 0⟩

/-- The character map `buildCharMap` produces for `[itAB, itCD]` under the
identity viewport (proved below): the four character boxes with the null
separator after each run. -/
def cmAB : List (Option CharBox) :=
  [some ⟨0, 90, 10, 10⟩, some ⟨10, 90, 10, 10⟩, none,
   some ⟨30, 90, 10, 10⟩, some ⟨40, 90, 10, 10⟩, none]

/-- Two positioned characters sharing their top edge (y = 0) while the
second's height (10) is far smaller than the first's (40): their vertical
centers (20 resp. 5) differ by 15, more than half the second's height. -/
def cm6 : List (Option CharBox) := [some ⟨0, 0, 1, 40⟩, some ⟨1, 0, 1, 10⟩]

/-- A pattern whose sole match spans offsets 0–2 and always validates;
used over a position-free (all-null) character map. -/
def pmNull : PatternM :=
  ⟨fun _ i => if i = 0 then some (0, "ab".data) else none, fun _ => true⟩

/-- A pattern whose sole match is the single character at offset 0 and
always validates. -/
def pmHit : PatternM :=
  ⟨fun _ i => if i = 0 then some (0, "a".data) else none, fun _ => true⟩

/-- The SSN-regex match whose text is `"078-05-1120"`. -/
def m078 : SSNMatch :=
  ⟨0, 7, 8, 0, 5, 1, 1, 2, 0, some '-', some '-'⟩

/-! ## Shared helper lemmas -/

/-- Generalized unrolling of `buildCharMap`'s fold: each item appends its
text plus one space to the accumulated text, and its boxes plus one null
entry to the accumulated map. -/
lemma foldl_buildStep (vp : Mat) (items : List TextItem) :
    ∀ (t : List Char) (m : List (Option CharBox)),
      items.foldl (buildStep vp) (t, m) =
        (t ++ (items.map (fun it => it.str ++ [' '])).flatten,
         m ++ (items.map (fun it => (itemBoxes vp it).map some ++ [none])).flatten) := by
  induction items with
  | nil => intro t m; simp
  | cons it rest ih =>
      intro t m
      by_cases h : it.str = []
      · simp [buildStep, h, ih, itemBoxes]
      · simp [buildStep, h, ih]

/-- The closed form of `buildCharMap`: text and character map are the
per-item contributions concatenated in order. -/
lemma buildCharMap_eq (items : List TextItem) (vp : Mat) :
    buildCharMap items vp =
      ((items.map (fun it => it.str ++ [' '])).flatten,
       (items.map (fun it => (itemBoxes vp it).map some ++ [none])).flatten) := by
  simpa [buildCharMap] using foldl_buildStep vp items [] []

/-- An item contributes exactly one box per character of its text. -/
lemma itemBoxes_length (vp : Mat) (it : TextItem) :
    (itemBoxes vp it).length = it.str.length := by
  by_cases h : it.str = []
  · simp [itemBoxes, h]
  · rw [itemBoxes, if_neg h, runChars, List.length_map, List.length_range]

/-! ## C1 — text and character map always have equal length -/

/-- Claim C1: for every list of text-content items, `buildCharMap` returns a
concatenated text and a character map of equal length (items with empty
strings included). -/
theorem buildCharMap_text_length_eq_charMap_length (items : List TextItem) (vp : Mat) :
    (buildCharMap items vp).1.length = (buildCharMap items vp).2.length := by
  rw [buildCharMap_eq]
  simp only [List.length_flatten, List.map_map]
  congr 1
  apply List.map_congr_left
  intro it _
  simp [itemBoxes_length]

/-! ## C8 — the index text versus concatenation with separators -/

/-- Claim C8, counterexample: for the single run "ab" the built text is `"ab "`
(a separator space follows the final run as well), which differs from the
run texts joined by separators placed strictly between runs (`"ab"`). -/
theorem buildCharMap_text_ne_sepsBetween :
    (buildCharMap [itAB] vpId).1 = "ab ".data ∧
    textWithSepsBetween [itAB] = "ab".data ∧
    (buildCharMap [itAB] vpId).1 ≠ textWithSepsBetween [itAB] := by
  refine ⟨by decide, by decide, by decide⟩

/-- Claim C8, amended: the index's text equals the concatenation of all run
texts each followed by one single-space separator (the separator follows
every run, the last included), and the character map is the concatenation
of each run's boxes followed by one null marker at each separator
position. -/
theorem buildCharMap_text_eq_concat_with_seps (items : List TextItem) (vp : Mat) :
    (buildCharMap items vp).1 = (items.map (fun it => it.str ++ [' '])).flatten ∧
    (buildCharMap items vp).2 =
      (items.map (fun it => (itemBoxes vp it).map some ++ [none])).flatten := by
  rw [buildCharMap_eq]
  exact ⟨rfl, rfl⟩

/-! ## Evaluation lemmas for the concrete fixtures -/

/-- The font size of `itAB` under the identity viewport is
`√(0·0 + 10·10) = 10`. -/
lemma itemFontSize_itAB : itemFontSize vpId itAB = 10 := by
  have h : ((transformPoint vpId itAB.transform).c * (transformPoint vpId itAB.transform).c +
      (transformPoint vpId itAB.transform).d * (transformPoint vpId itAB.transform).d) =
      (100 : ℚ) := by
    norm_num [transformPoint, vpId, itAB]
  rw [itemFontSize, h, ratSqrt]
  norm_num [show ((100 : ℚ)).num = 100 by norm_num, show ((100 : ℚ)).den = 1 by norm_num,
    show natSqrt (Int.toNat 100) = 10 by decide, show natSqrt 1 = 1 by decide]

/-- The font size of `itCD` under the identity viewport is 10. -/
lemma itemFontSize_itCD : itemFontSize vpId itCD = 10 := by
  have h : ((transformPoint vpId itCD.transform).c * (transformPoint vpId itCD.transform).c +
      (transformPoint vpId itCD.transform).d * (transformPoint vpId itCD.transform).d) =
      (100 : ℚ) := by
    norm_num [transformPoint, vpId, itCD]
  rw [itemFontSize, h, ratSqrt]
  norm_num [show ((100 : ℚ)).num = 100 by norm_num, show ((100 : ℚ)).den = 1 by norm_num,
    show natSqrt (Int.toNat 100) = 10 by decide, show natSqrt 1 = 1 by decide]

/-- The two boxes `buildCharMap` derives for `itAB`. -/
lemma itemBoxes_itAB :
    itemBoxes vpId itAB = [⟨0, 90, 10, 10⟩, ⟨10, 90, 10, 10⟩] := by
  rw [itemBoxes, if_neg (by decide)]
  simp only []
  rw [itemFontSize_itAB]
  norm_num [runChars, transformPoint, vpId, itAB,
    show List.range 2 = [0, 1] from rfl]

/-- The two boxes `buildCharMap` derives for `itCD`. -/
lemma itemBoxes_itCD :
    itemBoxes vpId itCD = [⟨30, 90, 10, 10⟩, ⟨40, 90, 10, 10⟩] := by
  rw [itemBoxes, if_neg (by decide)]
  simp only []
  rw [itemFontSize_itCD]
  norm_num [runChars, transformPoint, vpId, itCD,
    show List.range 2 = [0, 1] from rfl]

/-! ## Helper lemmas about the rectangle walk -/

/-- The fold of `walkStep` computes `rectsWalk`: the closed-rectangle
accumulator commutes out as a prefix. -/
lemma foldl_walkStep (l : List (Option CharBox)) :
    ∀ (rs : List Rect) (cur : Option Rect),
      ((l.foldl walkStep (rs, cur)).1 ++ (l.foldl walkStep (rs, cur)).2.toList) =
        rs ++ rectsWalk l cur := by
  induction l with
  | nil => intro rs cur; cases cur <;> simp [rectsWalk]
  | cons entry rest ih =>
      intro rs cur
      cases entry with
      | none =>
          cases cur with
          | none =>
              rw [List.foldl_cons]
              simp only [walkStep, rectsWalk]
              exact ih rs none
          | some r =>
              rw [List.foldl_cons]
              simp only [walkStep, rectsWalk]
              rw [ih]
              simp
      | some p =>
          cases cur with
          | none =>
              rw [List.foldl_cons]
              simp only [walkStep, rectsWalk]
              exact ih rs (some ⟨p.x, p.y, p.w, p.h⟩)
          | some r =>
              by_cases hc : |p.y - r.y| < p.h * (1 / 2)
              · rw [List.foldl_cons]
                simp only [walkStep, rectsWalk, if_pos hc]
                exact ih rs (some ⟨r.x, r.y, p.x + p.w - r.x, jsMax r.height p.h⟩)
              · rw [List.foldl_cons]
                simp only [walkStep, rectsWalk, if_neg hc]
                rw [ih]
                simp

/-- Walking further positioned characters that share the open rectangle's
top edge and have positive height only extends the open rectangle; its
top edge is preserved. -/
lemma rectsWalk_extend_row (bs : List CharBox) :
    ∀ r : Rect, (∀ b ∈ bs, b.y = r.y ∧ 0 < b.h) →
      ∃ r' : Rect, r'.y = r.y ∧
        ∀ rest, rectsWalk (bs.map some ++ rest) (some r) = rectsWalk rest (some r') := by
  induction bs with
  | nil => exact fun r _ => ⟨r, rfl, fun rest => by simp⟩
  | cons b bs ih =>
      intro r h
      obtain ⟨hy, hh⟩ := h b (by simp)
      have hcond : |b.y - r.y| < b.h * (1 / 2) := by
        rw [hy, sub_self, abs_zero]
        linarith
      obtain ⟨r', hy', hrest⟩ :=
        ih ⟨r.x, r.y, b.x + b.w - r.x, jsMax r.height b.h⟩
          (fun c hc => ⟨(h c (by simp [hc])).1, (h c (by simp [hc])).2⟩)
      exact ⟨r', hy', fun rest => by
        rw [List.map_cons, List.cons_append]
        simp only [rectsWalk, if_pos hcond]
        exact hrest rest⟩

/-- A nonempty block of positioned characters that all lie on one row
(equal top edge, equal positive height) is consumed as a single open
rectangle: the walk continues on the remainder with some rectangle open. -/
lemma rectsWalk_run_then (bs : List CharBox) (y0 h0 : ℚ) (hne : bs ≠ [])
    (hrow : ∀ b ∈ bs, b.y = y0 ∧ b.h = h0) (hpos : 0 < h0) :
    ∀ rest, ∃ r' : Rect,
      rectsWalk (bs.map some ++ rest) none = rectsWalk rest (some r') := by
  intro rest
  match bs, hne with
  | b :: bs', _ =>
      have hb := hrow b (by simp)
      obtain ⟨r', _, hrest⟩ :=
        rectsWalk_extend_row bs' ⟨b.x, b.y, b.w, b.h⟩
          (fun c hc => by
            have hcr := hrow c (by simp [hc])
            exact ⟨hcr.1.trans hb.1.symm, hcr.2 ▸ hpos⟩)
      exact ⟨r', by
        rw [List.map_cons, List.cons_append]
        simp only [rectsWalk]
        exact hrest rest⟩

/-- Every box contributed by an item lies on that item's row: top edge
`tx.f - fontSize`, height `fontSize`. -/
lemma itemBoxes_row (vp : Mat) (it : TextItem) :
    ∀ b ∈ itemBoxes vp it,
      b.y = (transformPoint vp it.transform).f - itemFontSize vp it ∧
      b.h = itemFontSize vp it := by
  intro b hb
  by_cases h : it.str = []
  · simp [itemBoxes, h] at hb
  · rw [itemBoxes, if_neg h] at hb
    simp only [runChars, List.mem_map, List.mem_range] at hb
    obtain ⟨i, _, rfl⟩ := hb
    exact ⟨rfl, rfl⟩

/-- An item with nonempty text contributes a nonempty box list. -/
lemma itemBoxes_ne_nil (vp : Mat) (it : TextItem) (h : it.str ≠ []) :
    itemBoxes vp it ≠ [] := by
  have hl := itemBoxes_length vp it
  intro hnil
  rw [hnil] at hl
  exact h (List.eq_nil_of_length_eq_zero hl.symm)

/-! ## C2 — rectangles for a match spanning two glyph runs -/

/-- Claim C2, counterexample: `itAB` and `itCD` are laid out on the same line
(both rows at y = 90, height 10), yet the span 1–4 — covering the last
character of the first run and the first character of the second — yields
*two* rectangles, not one: the null separator between runs closes the
open rectangle. -/
theorem sameLine_twoRun_span_yields_two_rects :
    (buildCharMap [itAB, itCD] vpId).2 = cmAB ∧
    (getRectsForRange cmAB 1 4).length = 2 ∧
    (getRectsForRange cmAB 1 4).length ≠ 1 := by
  refine ⟨?_, ?_, ?_⟩
  · rw [buildCharMap_eq]
    simp only [List.map_cons, List.map_nil, List.flatten_cons, List.flatten_nil]
    rw [itemBoxes_itAB, itemBoxes_itCD]
    simp [cmAB]
  · rw [show getRectsForRange cmAB 1 4 =
        [⟨10, 90, 10, 10⟩, ⟨30, 90, 10, 10⟩] by
      norm_num [getRectsForRange, cmAB, rectsWalk, jsMax]]
    rfl
  · rw [show getRectsForRange cmAB 1 4 =
        [⟨10, 90, 10, 10⟩, ⟨30, 90, 10, 10⟩] by
      norm_num [getRectsForRange, cmAB, rectsWalk, jsMax]]
    simp

/-- The trailing part of a span slice past the second run is either
nothing or the final null entry; both close the open rectangle. -/
lemma rectsWalk_take_none (k : Nat) (r : Rect) :
    rectsWalk (([none] : List (Option CharBox)).take k) (some r) = [r] := by
  cases k with
  | zero => rfl
  | succ n => simp [rectsWalk]

/-- Claim C2, amended: on a two-run page, *every* character span `[s, e)`
that covers at least one character of the first run (`s` inside the first
run's characters) and at least one character of the second (`e` past the
null separator, the second run nonempty) yields exactly two rectangles,
whether or not the runs lie on the same line: the covered characters of
each run form one rectangle and the null separator between the runs
closes the first.  In particular a match crossing a line break also
yields exactly two. -/
theorem span_over_two_runs_yields_one_rect_per_run
    (it1 it2 : TextItem) (vp : Mat)
    (hf1 : 0 < itemFontSize vp it1) (hf2 : 0 < itemFontSize vp it2)
    (h2 : it2.str ≠ []) (s e : Nat)
    (hs : s < it1.str.length) (he : it1.str.length + 1 < e) :
    (getRectsForRange (buildCharMap [it1, it2] vp).2 s e).length = 2 := by
  have hm1 : (List.map some (itemBoxes vp it1) : List (Option CharBox)).length =
      it1.str.length := by
    simp [itemBoxes_length]
  have hm2 : (List.map some (itemBoxes vp it2) : List (Option CharBox)).length =
      it2.str.length := by
    simp [itemBoxes_length]
  have hX : (List.map some (itemBoxes vp it1) ++ ([none] : List (Option CharBox))).length =
      it1.str.length + 1 := by
    simp [itemBoxes_length]
  rw [buildCharMap_eq]
  simp only [List.map_cons, List.map_nil, List.flatten_cons, List.flatten_nil,
    List.append_nil]
  rw [getRectsForRange]
  rw [List.take_append_eq_append_take, hX,
    List.take_of_length_le (by rw [hX]; omega),
    List.take_append_eq_append_take, hm2, ← List.map_take,
    List.drop_append_eq_append_drop, hX,
    show s - (it1.str.length + 1) = 0 by omega, List.drop_zero,
    List.drop_append_eq_append_drop, hm1,
    show s - it1.str.length = 0 by omega, List.drop_zero, ← List.map_drop]
  have ne1 : (itemBoxes vp it1).drop s ≠ [] := by
    apply List.ne_nil_of_length_pos
    rw [List.length_drop, itemBoxes_length]
    omega
  have ne2 : (itemBoxes vp it2).take (e - (it1.str.length + 1)) ≠ [] := by
    apply List.ne_nil_of_length_pos
    rw [List.length_take, itemBoxes_length]
    have hn2 : 0 < it2.str.length := List.length_pos.mpr h2
    omega
  obtain ⟨r1, e1⟩ :=
    rectsWalk_run_then ((itemBoxes vp it1).drop s) _ _ ne1
      (fun b hb => itemBoxes_row vp it1 b (List.mem_of_mem_drop hb)) hf1
      ([none] ++ (((itemBoxes vp it2).take (e - (it1.str.length + 1))).map some ++
        ([none] : List (Option CharBox)).take (e - (it1.str.length + 1) - it2.str.length)))
  obtain ⟨r2, e2⟩ :=
    rectsWalk_run_then ((itemBoxes vp it2).take (e - (it1.str.length + 1))) _ _ ne2
      (fun b hb => itemBoxes_row vp it2 b (List.mem_of_mem_take hb)) hf2
      (([none] : List (Option CharBox)).take (e - (it1.str.length + 1) - it2.str.length))
  simp only [List.append_assoc]
  rw [e1]
  simp only [List.singleton_append, List.append_eq, List.nil_append, rectsWalk]
  rw [e2, rectsWalk_take_none]
  rfl

/-- Witness for C2 (amended): applied to the concrete same-line runs
`itAB`, `itCD` under the identity viewport, with the partial span 1–4
covering the last character of the first run and the first character of
the second. -/
theorem span_over_two_runs_yields_one_rect_per_run_witness :
    (getRectsForRange (buildCharMap [itAB, itCD] vpId).2 1 4).length = 2 :=
  span_over_two_runs_yields_one_rect_per_run itAB itCD vpId
    (by rw [itemFontSize_itAB]; norm_num)
    (by rw [itemFontSize_itCD]; norm_num)
    (by decide) 1 4 (by decide) (by decide)

/-! ## C6 — the extension rule of the rectangle walk -/

/-- Claim C6, counterexample: two positioned characters share their top edge
(y = 0) but have heights 40 and 10; the source walk extends (one
rectangle), while the claimed vertical-center rule — centers 20 and 5
differ by 15, not within half the entry's height (5) — would close and
reopen (two rectangles). -/
theorem rect_walk_center_rule_counterexample :
    getRectsForRange cm6 0 2 = [⟨0, 0, 2, 40⟩] ∧
    centerRuleRects cm6 0 2 = [⟨0, 0, 1, 40⟩, ⟨1, 0, 1, 10⟩] ∧
    getRectsForRange cm6 0 2 ≠ centerRuleRects cm6 0 2 := by
  have h1 : getRectsForRange cm6 0 2 = [⟨0, 0, 2, 40⟩] := by
    norm_num [getRectsForRange, cm6, rectsWalk, jsMax]
  have h2 : centerRuleRects cm6 0 2 = [⟨0, 0, 1, 40⟩, ⟨1, 0, 1, 10⟩] := by
    norm_num [centerRuleRects, cm6, centerWalk]
  refine ⟨h1, h2, ?_⟩
  rw [h1, h2]
  simp

/-- Claim C6, amended: the walk closes any open rectangle at a null entry,
extends the open rectangle at a non-null entry exactly when the entry's
*top edge* lies within half the entry's height of the open rectangle's
*top edge* (the top recorded when the rectangle was opened), otherwise
closes it and opens a new one, and flushes any still-open rectangle at
the end of the span — i.e. `getRectsForRange` coincides with the
state-machine walk `spanWalkRects`. -/
theorem getRectsForRange_eq_spanWalkRects
    (cm : List (Option CharBox)) (s e : Nat) :
    getRectsForRange cm s e = spanWalkRects cm s e := by
  rw [getRectsForRange, spanWalkRects]
  simpa using (foldl_walkStep ((cm.take e).drop s) [] none).symm

/-! ## Helper lemmas about digits and separators -/

/-- No digit character is a separator. -/
lemma isSepChar_digitChar : ∀ d : Fin 10, isSepChar (digitChar d) = false := by
  decide

/-- The value of a digit character. -/
lemma digitVal_digitChar : ∀ d : Fin 10, digitVal (digitChar d) = d.val := by
  decide

/-- A digit character equals `'0'` exactly for the digit 0. -/
lemma digitChar_eq_zero_iff : ∀ d : Fin 10, digitChar d = '0' ↔ d = 0 := by
  decide

/-- Stripping separators drops an optional separator character entirely. -/
lemma stripSeps_sep_toList (o : Option Char) (h : o.all isSepChar = true) :
    (o.toList).filter (fun c => !(isSepChar c)) = [] := by
  cases o with
  | none => rfl
  | some c =>
      simp only [Option.all_some] at h
      simp [List.filter, h]

/-- Stripping separators from a rendered SSN match leaves exactly its
nine digit characters. -/
lemma stripSeps_renderSSN (m : SSNMatch)
    (h1 : m.sep1.all isSepChar = true) (h2 : m.sep2.all isSepChar = true) :
    stripSeps (renderSSN m) =
      [digitChar m.a1, digitChar m.a2, digitChar m.a3,
       digitChar m.g1, digitChar m.g2,
       digitChar m.s1, digitChar m.s2, digitChar m.s3, digitChar m.s4] := by
  rw [renderSSN, stripSeps]
  simp [List.filter_append, List.filter_cons, isSepChar_digitChar,
    stripSeps_sep_toList m.sep1 h1, stripSeps_sep_toList m.sep2 h2]

/-- `parseInt` of the three area digit characters. -/
lemma charsToNat_three (d1 d2 d3 : Fin 10) :
    charsToNat [digitChar d1, digitChar d2, digitChar d3] =
      100 * d1.val + 10 * d2.val + d3.val := by
  simp [charsToNat, digitVal_digitChar]
  omega

/-! ## C3 — the SSN validator -/

/-- Claim C3: applied to any match of the SSN regex shape, the validator strips
separators and accepts exactly when the area is not 000, not 666 and not
900–999, the group is not "00" and the serial is not "0000"; in
particular "078-05-1120" is accepted while "000-12-3456" and
"123-00-4567" are rejected. -/
theorem ssnValidate_characterization :
    (∀ m : SSNMatch,
      m.sep1.all isSepChar = true → m.sep2.all isSepChar = true →
      (ssnValidate (renderSSN m) = true ↔
        (ssnArea m ≠ 0 ∧ ssnArea m ≠ 666 ∧ ssnArea m < 900 ∧
          ¬(m.g1 = 0 ∧ m.g2 = 0) ∧
          ¬(m.s1 = 0 ∧ m.s2 = 0 ∧ m.s3 = 0 ∧ m.s4 = 0)))) ∧
    ssnValidate "078-05-1120".data = true ∧
    ssnValidate "000-12-3456".data = false ∧
    ssnValidate "123-00-4567".data = false := by
  refine ⟨?_, by decide, by decide, by decide⟩
  intro m h1 h2
  rw [ssnValidate]
  rw [stripSeps_renderSSN m h1 h2]
  simp only [List.length_cons, List.length_nil, List.take, List.drop]
  rw [if_neg (by omega)]
  rw [charsToNat_three]
  rw [show 100 * m.a1.val + 10 * m.a2.val + m.a3.val = ssnArea m from rfl]
  split_ifs with hA hG hS
  · refine iff_of_false (by simp) ?_
    rintro ⟨x1, x2, x3, -, -⟩
    omega
  · simp only [List.cons.injEq, and_true, digitChar_eq_zero_iff] at hG
    refine iff_of_false (by simp) ?_
    rintro ⟨-, -, -, hg, -⟩
    exact hg hG
  · simp only [List.cons.injEq, and_true, digitChar_eq_zero_iff] at hS
    refine iff_of_false (by simp) ?_
    rintro ⟨-, -, -, -, hs⟩
    exact hs hS
  · simp only [List.cons.injEq, and_true, digitChar_eq_zero_iff] at hG hS
    refine iff_of_true rfl ⟨?_, ?_, ?_, hG, hS⟩ <;> omega

/-- Witness for C3: the characterization applied to the concrete match
`m078` (text "078-05-1120"). -/
theorem ssnValidate_characterization_witness :
    ssnValidate (renderSSN m078) = true :=
  (ssnValidate_characterization.1 m078 (by decide) (by decide)).mpr (by decide)

/-! ## Helper lemmas about the Luhn checksum -/

/-- Splitting off the head of the alternating Luhn sum. -/
lemma luhnAlt_cons (v : Nat) (vs : List Nat) :
    luhnAlt (v :: vs) = v + luhnAltT vs := by
  cases vs with
  | nil => simp [luhnAlt, luhnAltT]
  | cons w ws => simp [luhnAlt, luhnAltT]; omega

/-- On an all-digit string the source's summation loop computes the
textbook Luhn sum of the digit values (in both phases of the alternating
flag), and never hits the NaN case. -/
lemma luhnSum_eq_luhnAlt (l : List Char) :
    (∀ c ∈ l, c.isDigit = true) →
      luhnSum l false = some (luhnAlt (l.map digitVal)) ∧
      luhnSum l true = some (luhnAltT (l.map digitVal)) := by
  induction l with
  | nil => intro _; simp [luhnSum, luhnAlt, luhnAltT]
  | cons c rest ih =>
      intro h
      have hc : c.isDigit = true := h c (by simp)
      have hr := ih (fun d hd => h d (by simp [hd]))
      constructor
      · rw [luhnSum, if_pos hc]
        simp only [Bool.not_false]
        rw [hr.2]
        simp [luhnAlt_cons]
      · rw [luhnSum, if_pos hc]
        simp only [Bool.not_true]
        rw [hr.1]
        simp [luhnAltT]

/-- `luhnCheck` on an all-digit string tests the textbook Luhn sum of the
digit values read right-to-left. -/
lemma luhnCheck_iff (digits : List Char) (h : ∀ c ∈ digits, c.isDigit = true) :
    luhnCheck digits = true ↔ luhnAlt (digits.reverse.map digitVal) % 10 = 0 := by
  rw [luhnCheck,
    (luhnSum_eq_luhnAlt digits.reverse (fun c hc => h c (List.mem_reverse.mp hc))).1]
  simp

/-! ## C4 — the credit-card validator -/

/-- Claim C4: applied to any match of the card regex shape (digits and
separators), the validator strips separators, rejects digit strings of
length under 13 or over 19, and otherwise accepts exactly the strings
whose digits pass the Luhn checksum; in particular "4532015112830366" is
accepted and "4532015112830367" is rejected. -/
theorem creditCardValidate_characterization :
    (∀ s : List Char, (∀ c ∈ s, c.isDigit = true ∨ isSepChar c = true) →
      (creditCardValidate s = true ↔
        (13 ≤ (stripSeps s).length ∧ (stripSeps s).length ≤ 19 ∧
          luhnAlt ((stripSeps s).reverse.map digitVal) % 10 = 0))) ∧
    creditCardValidate "4532015112830366".data = true ∧
    creditCardValidate "4532015112830367".data = false := by
  refine ⟨?_, by decide, by decide⟩
  intro s h
  have hdig : ∀ c ∈ stripSeps s, c.isDigit = true := by
    intro c hc
    rw [stripSeps, List.mem_filter] at hc
    rcases h c hc.1 with hd | hs
    · exact hd
    · rw [hs] at hc
      simp at hc
  rw [creditCardValidate]
  by_cases hlen : (stripSeps s).length < 13 ∨ 19 < (stripSeps s).length
  · rw [if_pos hlen]
    refine iff_of_false (by simp) ?_
    rintro ⟨hl1, hl2, -⟩
    omega
  · rw [if_neg hlen, luhnCheck_iff (stripSeps s) hdig]
    push_neg at hlen
    constructor
    · intro hml
      exact ⟨by omega, by omega, hml⟩
    · rintro ⟨-, -, hml⟩
      exact hml

/-- Witness for C4: the characterization applied to the separator-laden
valid card number "4111-1111-1111-1111". -/
theorem creditCardValidate_characterization_witness :
    creditCardValidate "4111-1111-1111-1111".data = true :=
  (creditCardValidate_characterization.1 "4111-1111-1111-1111".data (by decide)).mpr
    (by decide)

/-! ## C5 — invalid custom regex falls back to escaped literal search -/

/-- Unfolding one character of `escapeRegex`. -/
lemma escapeRegex_cons (c : Char) (l : List Char) :
    escapeRegex (c :: l) =
      (if isMeta c then ['\\', c] else [c]) ++ escapeRegex l := by
  simp [escapeRegex]

/-- The escaped form of any string parses as exactly that literal
character sequence: every metacharacter ends up escaped, so none retains
special meaning. -/
lemma litPattern_escapeRegex (p : List Char) :
    litPattern (escapeRegex p) = some p := by
  induction p with
  | nil => rfl
  | cons c rest ih =>
      rw [escapeRegex_cons]
      by_cases hm : isMeta c
      · rw [if_pos hm]
        simp [litPattern, ih]
      · rw [if_neg hm]
        have hbs : ¬(c = '\\') := fun hc => hm (hc ▸ (by decide : isMeta '\\' = true))
        rw [List.singleton_append, litPattern.eq_def]
        simp only [if_neg hbs, if_neg hm]
        rw [ih]
        rfl

/-- Claim C5: when the supplied custom pattern's regex syntax is invalid, the
compilation in `searchPatterns` does not throw — the `catch` branch
always yields a pattern, the escape of the input — and that pattern
denotes literal substring search for exactly the supplied string; shown
on the unbalanced-parenthesis pattern "(a(bc" as well. -/
theorem invalid_custom_pattern_literal_fallback :
    (∀ p : List Char, litPattern (customRegexChars p false) = some p) ∧
    customRegexChars "(a(bc".data false = "\\(a\\(bc".data ∧
    litPattern (customRegexChars "(a(bc".data false) = some "(a(bc".data := by
  refine ⟨?_, by decide, by decide⟩
  intro p
  rw [customRegexChars, if_neg (by simp)]
  exact litPattern_escapeRegex p

/-! ## C7 — OCR boxes are divided by the 300/72 scale factor -/

/-- Claim C7: a word box produced at the 300-dpi reference resolution is stored
after dividing each coordinate by `SCALE_FACTOR = 300/72`; the stored
width equals `(x1-x0)/(300/72)` exactly, hence within 1e-6. -/
theorem ocr_box_width_scaled (b : BBox) :
    (pdfBboxOf b).x1 - (pdfBboxOf b).x0 = (b.x1 - b.x0) / (300 / 72) ∧
    |((pdfBboxOf b).x1 - (pdfBboxOf b).x0) - (b.x1 - b.x0) / (300 / 72)| ≤
      1 / 1000000 := by
  have h : (pdfBboxOf b).x1 - (pdfBboxOf b).x0 = (b.x1 - b.x0) / (300 / 72) := by
    rw [pdfBboxOf]
    simp only [SCALE_FACTOR, OCR_DPI, PDF_DPI]
    ring
  refine ⟨h, ?_⟩
  rw [h, sub_self, abs_zero]
  norm_num

/-! ## C9 — searching an empty index returns no matches -/

/-- Claim C9: over the empty page index (no text items: empty text, empty
character map) the match loop returns the empty result list for every
pattern, every fuel bound and every scan position — no match is ever
reported and no error arises. -/
theorem search_empty_index_no_matches (pm : PatternM) (vp : Mat) :
    ∀ (fuel lastIndex : Nat),
      searchLoop pm (buildCharMap [] vp).1 (buildCharMap [] vp).2 fuel lastIndex = [] := by
  have hcm : buildCharMap [] vp = ([], []) := rfl
  rw [hcm]
  intro fuel
  induction fuel with
  | zero => intro l; rfl
  | succ n ih =>
      intro l
      rw [searchLoop]
      cases h : pm.exec [] l with
      | none => rfl
      | some v =>
          obtain ⟨idx, mt⟩ := v
          have hr : getRectsForRange [] idx (idx + mt.length) = [] := by
            simp [getRectsForRange, rectsWalk]
          simp only [hr, List.length_nil, lt_irrefl, if_false]
          split <;> exact ih _

/-! ## C10 — every reported match carries non-empty geometry -/

/-- Claim C10: every element of the match loop's result list has a non-empty
rectangle list; and a validated match whose span holds only null
character-map entries (position-free fallback text) is silently omitted,
as `pmNull`'s match over an all-null map shows. -/
theorem search_results_have_rects :
    (∀ (pm : PatternM) (ft : List Char) (cm : List (Option CharBox))
      (fuel l : Nat) (r : SearchHit),
      r ∈ searchLoop pm ft cm fuel l → r.rects ≠ []) ∧
    searchLoop pmNull "ab".data [none, none] 3 0 = [] := by
  refine ⟨?_, by decide⟩
  intro pm ft cm fuel
  induction fuel with
  | zero => intro l r hr; simp [searchLoop] at hr
  | succ n ih =>
      intro l r hr
      rw [searchLoop] at hr
      cases h : pm.exec ft l with
      | none => rw [h] at hr; simp at hr
      | some v =>
          obtain ⟨idx, mt⟩ := v
          rw [h] at hr
          simp only at hr
          by_cases hv : pm.validate mt = false
          · rw [if_pos hv] at hr
            exact ih _ r hr
          · rw [if_neg hv] at hr
            by_cases hl : 0 < (getRectsForRange cm idx (idx + mt.length)).length
            · rw [if_pos hl] at hr
              rcases List.mem_cons.mp hr with hEq | hMem
              · rw [hEq]
                exact List.ne_nil_of_length_pos hl
              · exact ih _ r hMem
            · rw [if_neg hl] at hr
              exact ih _ r hr

/-- Witness for C10: the hit reported for `pmHit` over a one-box map has
non-empty geometry. -/
theorem search_results_have_rects_witness :
    (⟨"a".data, [⟨0, 0, 1, 10⟩]⟩ : SearchHit).rects ≠ [] :=
  search_results_have_rects.1 pmHit "a".data [some ⟨0, 0, 1, 10⟩] 2 0
    ⟨"a".data, [⟨0, 0, 1, 10⟩]⟩ (by decide)

end Mudbrick
